import Mathlib

/-!
Verification of the chain-parameterization and peer-identity core of
mwc-node (`core/src/global.rs` and `p2p/src/types.rs`), as a shallow
embedding in Lean 4.

Machine integers (`u8`, `u16`, `u32`, `u64`, `usize`) are embedded as
`Nat`, with explicit wrap-around (`% 2^64`) where the source's wrapping
arithmetic matters and explicit well-formedness bounds (`< 256`,
`< 65536`, `< 2^64`) where the Rust type system guarantees them.
Fallible operations return `Option`; a Rust panic is embedded as `none`.
-/

/- ================================================================
   core/src/global.rs — chain profiles and consensus accessors
   ================================================================ -/

/-- The five chain profiles (`ChainTypes` in `global.rs`). -/
inductive ChainTypes where
  | AutomatedTesting
  | PerfTesting
  | UserTesting
  | Floonet
  | Mainnet
deriving DecidableEq, Repr, Fintype

/-- `ChainTypes::shortname` from `global.rs`. -/
def ChainTypes.shortname : ChainTypes → String
  | .AutomatedTesting => "auto"
  | .PerfTesting => "perf"
  | .UserTesting => "user"
  | .Floonet => "floo"
  | .Mainnet => "main"

/-- `AUTOMATED_TESTING_MIN_EDGE_BITS` (`global.rs`). -/
def AUTOMATED_TESTING_MIN_EDGE_BITS : Nat := 10

/-- `AUTOMATED_TESTING_PROOF_SIZE` (`global.rs`). -/
def AUTOMATED_TESTING_PROOF_SIZE : Nat := 8

/-- `USER_TESTING_MIN_EDGE_BITS` (`global.rs`). -/
def USER_TESTING_MIN_EDGE_BITS : Nat := 15

/-- `USER_TESTING_PROOF_SIZE` (`global.rs`). -/
def USER_TESTING_PROOF_SIZE : Nat := 42

/-- `AUTOMATED_TESTING_COINBASE_MATURITY` (`global.rs`). -/
def AUTOMATED_TESTING_COINBASE_MATURITY : Nat := 3

/-- `USER_TESTING_COINBASE_MATURITY` (`global.rs`). -/
def USER_TESTING_COINBASE_MATURITY : Nat := 3

/-- `AUTOMATED_TESTING_CUT_THROUGH_HORIZON` (`global.rs`). -/
def AUTOMATED_TESTING_CUT_THROUGH_HORIZON : Nat := 20

/-- `USER_TESTING_CUT_THROUGH_HORIZON` (`global.rs`). -/
def USER_TESTING_CUT_THROUGH_HORIZON : Nat := 70

/-- `TESTING_STATE_SYNC_THRESHOLD` (`global.rs`). -/
def TESTING_STATE_SYNC_THRESHOLD : Nat := 20

/-- `TESTING_INITIAL_GRAPH_WEIGHT` (`global.rs`). -/
def TESTING_INITIAL_GRAPH_WEIGHT : Nat := 1

/-- `TESTING_INITIAL_DIFFICULTY` (`global.rs`). -/
def TESTING_INITIAL_DIFFICULTY : Nat := 1

/-- `TESTING_MAX_BLOCK_WEIGHT` (`global.rs`): artificially low testing
block weight. -/
def TESTING_MAX_BLOCK_WEIGHT : Nat := 250

/-- `TESTING_TXHASHSET_ARCHIVE_INTERVAL` (`global.rs`). -/
def TESTING_TXHASHSET_ARCHIVE_INTERVAL : Nat := 10

/-- `TXHASHSET_ARCHIVE_INTERVAL` (`global.rs`): `12 * 60`. -/
def TXHASHSET_ARCHIVE_INTERVAL : Nat := 12 * 60

/-- Modelled from the spec: `DEFAULT_MIN_EDGE_BITS`, the production
minimum proof-of-work edge bits, a consensus constant imported by
`global.rs` from `core/src/consensus.rs` which is not part of the
sources in scope; the production value is 31. -/
def DEFAULT_MIN_EDGE_BITS : Nat := 31

/-- Modelled from the spec: `BASE_EDGE_BITS`, the reference edge bits
for graph-size scaling, a consensus constant imported by `global.rs`
from `core/src/consensus.rs` which is not in scope; the production
value is 24. -/
def BASE_EDGE_BITS : Nat := 24

/-- Modelled from the spec: `PROOFSIZE`, the production proof-of-work
cycle length, a consensus constant imported by `global.rs` from
`core/src/consensus.rs` which is not in scope; the production value is
42 cycle elements. -/
def PROOFSIZE : Nat := 42

/-- Modelled from the spec: `COINBASE_MATURITY`, the production
coinbase spend maturity in blocks, a consensus constant imported by
`global.rs` from `core/src/consensus.rs` which is not in scope; the
production value is one day of blocks, 1440. -/
def COINBASE_MATURITY : Nat := 1440

/-- Modelled from the spec: `MAX_BLOCK_WEIGHT`, the production maximum
block weight, a consensus constant imported by `global.rs` from
`core/src/consensus.rs` which is not in scope. The source describes
`TESTING_MAX_BLOCK_WEIGHT = 250` as "artifically low, just enough to
support a few txs"; the production value is 40000 weight units. -/
def MAX_BLOCK_WEIGHT : Nat := 40000

/-- Modelled from the spec: `CUT_THROUGH_HORIZON`, the production
cut-through pruning horizon, a consensus constant imported by
`global.rs` from `core/src/consensus.rs` which is not in scope; the
production value is one week of blocks, 10080. -/
def CUT_THROUGH_HORIZON : Nat := 10080

/-- Modelled from the spec: `STATE_SYNC_THRESHOLD`, the production
state-sync trigger threshold, a consensus constant imported by
`global.rs` from `core/src/consensus.rs` which is not in scope; the
production value is two days of blocks, 2880. -/
def STATE_SYNC_THRESHOLD : Nat := 2880

/-- Modelled from the spec: `BLOCK_TIME_SEC`, the nominal inter-block
time in seconds, a consensus constant imported by `global.rs` from
`core/src/consensus.rs` which is not in scope; the nominal block time
is 60 seconds. -/
def BLOCK_TIME_SEC : Nat := 60

/-- Modelled from the spec: `DIFFICULTY_ADJUST_WINDOW`, the number of
blocks in the difficulty-adjustment window, a consensus constant
imported by `global.rs` from `core/src/consensus.rs` which is not in
scope; the value is one hour of blocks, 60. -/
def DIFFICULTY_ADJUST_WINDOW : Nat := 60

/-- `min_edge_bits` (`global.rs`), as a function of the resolved chain
type. -/
def min_edge_bits : ChainTypes → Nat
  | .AutomatedTesting | .PerfTesting => AUTOMATED_TESTING_MIN_EDGE_BITS
  | .UserTesting => USER_TESTING_MIN_EDGE_BITS
  | _ => DEFAULT_MIN_EDGE_BITS

/-- `base_edge_bits` (`global.rs`). -/
def base_edge_bits : ChainTypes → Nat
  | .AutomatedTesting | .PerfTesting => AUTOMATED_TESTING_MIN_EDGE_BITS
  | .UserTesting => USER_TESTING_MIN_EDGE_BITS
  | _ => BASE_EDGE_BITS

/-- `proofsize` (`global.rs`). -/
def proofsize : ChainTypes → Nat
  | .AutomatedTesting | .PerfTesting => AUTOMATED_TESTING_PROOF_SIZE
  | .UserTesting => USER_TESTING_PROOF_SIZE
  | _ => PROOFSIZE

/-- `coinbase_maturity` (`global.rs`). -/
def coinbase_maturity : ChainTypes → Nat
  | .AutomatedTesting | .PerfTesting => AUTOMATED_TESTING_COINBASE_MATURITY
  | .UserTesting => USER_TESTING_COINBASE_MATURITY
  | _ => COINBASE_MATURITY

/-- `max_block_weight` (`global.rs`): note the five-way match in the
source, with `PerfTesting` mapped to the production constant. -/
def max_block_weight : ChainTypes → Nat
  | .AutomatedTesting => TESTING_MAX_BLOCK_WEIGHT
  | .PerfTesting => MAX_BLOCK_WEIGHT
  | .UserTesting => TESTING_MAX_BLOCK_WEIGHT
  | .Floonet => MAX_BLOCK_WEIGHT
  | .Mainnet => MAX_BLOCK_WEIGHT

/-- `cut_through_horizon` (`global.rs`). -/
def cut_through_horizon : ChainTypes → Nat
  | .AutomatedTesting | .PerfTesting => AUTOMATED_TESTING_CUT_THROUGH_HORIZON
  | .UserTesting => USER_TESTING_CUT_THROUGH_HORIZON
  | _ => CUT_THROUGH_HORIZON

/-- `state_sync_threshold` (`global.rs`). -/
def state_sync_threshold : ChainTypes → Nat
  | .AutomatedTesting | .PerfTesting => TESTING_STATE_SYNC_THRESHOLD
  | .UserTesting => TESTING_STATE_SYNC_THRESHOLD
  | _ => STATE_SYNC_THRESHOLD

/-- `txhashset_archive_interval` (`global.rs`). -/
def txhashset_archive_interval : ChainTypes → Nat
  | .AutomatedTesting | .PerfTesting => TESTING_TXHASHSET_ARCHIVE_INTERVAL
  | .UserTesting => TESTING_TXHASHSET_ARCHIVE_INTERVAL
  | _ => TXHASHSET_ARCHIVE_INTERVAL

/-- The three dispatch tiers the spec describes for the derived
consensus accessors: one value for the automated/perf testing pair,
one for user testing, one shared production value. -/
inductive DispatchTier where
  | Test
  | User
  | Prod
deriving DecidableEq, Repr

/-- Classifies each chain type into its spec-described dispatch tier. -/
def dispatchTier : ChainTypes → DispatchTier
  | .AutomatedTesting | .PerfTesting => .Test
  | .UserTesting => .User
  | .Floonet | .Mainnet => .Prod

/-- A consensus accessor dispatches three-tier when it factors through
`dispatchTier`. -/
def threeTier (f : ChainTypes → Nat) : Prop :=
  ∀ c c' : ChainTypes, dispatchTier c = dispatchTier c' → f c = f c'

instance (f : ChainTypes → Nat) : Decidable (threeTier f) :=
  inferInstanceAs (Decidable (∀ c c' : ChainTypes, dispatchTier c = dispatchTier c' → f c = f c'))

/- Thread-local / global chain-type resolution (`get_chain_type`). -/

/-- The two storage scopes consulted by `get_chain_type`: the
thread-local `CHAIN_TYPE` cell and the process-wide
`GLOBAL_CHAIN_TYPE` one-time cell; `none` models an unset cell. -/
structure ChainTypeState where
  localType : Option ChainTypes
  globalType : Option ChainTypes
deriving DecidableEq, Repr

/-- `set_local_chain_type` (`global.rs`): unconditionally sets the
thread-local cell. -/
def set_local_chain_type (t : ChainTypes) (s : ChainTypeState) : ChainTypeState :=
  { s with localType := some t }

/-- `get_chain_type` (`global.rs`): thread-local value if set, else the
global value if initialized (caching it into the thread-local cell),
else a panic (embedded as `none`). -/
def get_chain_type (s : ChainTypeState) : Option (ChainTypes × ChainTypeState) :=
  match s.localType with
  | some t => some (t, s)
  | none =>
    match s.globalType with
    | some g => some (g, set_local_chain_type g s)
    | none => none

/- Proof-of-work backend selection (`create_pow_context`). -/

/-- The two proof-of-work backends `create_pow_context` chooses
between: `cuckarood` (`new_cuckarood_ctx`, the primary algorithm) and
`cuckatoo` (`new_cuckatoo_ctx`, the secondary algorithm). -/
inductive PowBackend where
  | cuckarood
  | cuckatoo
deriving DecidableEq, Repr

/-- `create_pow_context` (`global.rs`), reduced to which backend
constructor is invoked; `height` is accepted and ignored by the
source's match, and `proof_size` / `max_sols` are only forwarded to
the chosen constructor. -/
def create_pow_context (chain_type : ChainTypes) (_height : Nat) (edge_bits : Nat)
    (_proof_size : Nat) (_max_sols : Nat) : PowBackend :=
  match chain_type with
  | .Mainnet => if edge_bits > 29 then .cuckatoo else .cuckarood
  | .Floonet => if edge_bits > 29 then .cuckatoo else .cuckarood
  | _ => .cuckatoo

/- Server running flag (`SERVER_RUNNING`). -/

/-- The initial value of the `SERVER_RUNNING` atomic flag
(`AtomicBool::new(true)` in `global.rs`). -/
def SERVER_RUNNING_INIT : Bool := true

/-- The three operations `global.rs` exposes on the `SERVER_RUNNING`
flag. -/
inductive ServerOp where
  | requestStop
  | isRunning
  | getController
deriving DecidableEq, Repr

/-- Effect of one server-flag operation on the flag:
`request_server_stop` stores `false`; `is_server_running` and
`get_server_running_controller` only read. -/
def serverStep : ServerOp → Bool → Bool
  | .requestStop, _ => false
  | .isRunning, s => s
  | .getController, s => s

/-- Runs a sequence of server-flag operations from a starting flag
value. -/
def runServerOps (ops : List ServerOp) (s : Bool) : Bool :=
  ops.foldl (fun st op => serverStep op st) s

/- ================================================================
   core/src/global.rs — difficulty window padding
   ================================================================ -/

/-- Modelled from the spec: `HeaderInfo`, the per-header difficulty
sample `(timestamp, difficulty, secondary-scale)` used by the
difficulty-adjustment window; the struct lives in
`core/src/consensus.rs`, which is not part of the sources in scope.
Timestamps and difficulties are `u64`, the secondary scale a `u32`. -/
structure HeaderInfo where
  timestamp : Nat
  difficulty : Nat
  secondary_scaling : Nat
deriving DecidableEq, Repr

/-- Modelled from the spec: `HeaderInfo::from_ts_diff`, the constructor
(`core/src/consensus.rs`, not in scope) used for the synthesized
window entries, carrying the given timestamp and difficulty; the
secondary scale of a synthesized entry is the profile's initial graph
weight, fixed here at the testing value since no claim depends on it. -/
def HeaderInfo.from_ts_diff (ts : Nat) (diff : Nat) : HeaderInfo :=
  { timestamp := ts, difficulty := diff, secondary_scaling := TESTING_INITIAL_GRAPH_WEIGHT }

/-- Wrapping `u64` subtraction, the release-mode semantics of the
`last_n[0].timestamp - last_n[1].timestamp` expression in
`difficulty_data_to_vector`. -/
def u64_sub (a b : Nat) : Nat := (a + 2 ^ 64 - b) % 2 ^ 64

/-- The padding loop of `difficulty_data_to_vector`: starting from the
oldest known timestamp, repeatedly subtract the delta (saturating, as
`saturating_sub`) and emit `HeaderInfo::from_ts_diff` entries. -/
def padSim (delta diff : Nat) : Nat → Nat → List HeaderInfo
  | _, 0 => []
  | last_ts, k + 1 =>
    HeaderInfo.from_ts_diff (last_ts - delta) diff :: padSim delta diff (last_ts - delta) k

/-- `difficulty_data_to_vector` (`global.rs`): truncates the
newest-first cursor to `DIFFICULTY_ADJUST_WINDOW + 1` entries, pads a
short window by simulating pre-genesis blocks, and reverses to
oldest-first. On the empty cursor the source indexes `last_n[0]` of an
empty vector and panics; the panic is embedded as `none`. -/
def difficulty_data_to_vector (cursor : List HeaderInfo) : Option (List HeaderInfo) :=
  let needed_block_count := DIFFICULTY_ADJUST_WINDOW + 1
  let last_n := cursor.take needed_block_count
  let n := last_n.length
  if needed_block_count > n then
    match last_n with
    | [] => none
    | first :: rest =>
      let last_ts_delta :=
        match rest with
        | second :: _ => u64_sub first.timestamp second.timestamp
        | [] => BLOCK_TIME_SEC
      let last_diff := first.difficulty
      let last_ts := ((first :: rest).getLast (List.cons_ne_nil _ _)).timestamp
      some (((first :: rest) ++ padSim last_ts_delta last_diff last_ts (needed_block_count - n)).reverse)
  else
    some last_n.reverse

/- ================================================================
   p2p/src/types.rs — peer addresses and their wire codec
   ================================================================ -/

/-- `std::net::Ipv4Addr`: four octets. -/
structure Ipv4Addr where
  o0 : Nat
  o1 : Nat
  o2 : Nat
  o3 : Nat
deriving DecidableEq, Repr

/-- `std::net::Ipv6Addr`: eight 16-bit segments. -/
structure Ipv6Addr where
  s0 : Nat
  s1 : Nat
  s2 : Nat
  s3 : Nat
  s4 : Nat
  s5 : Nat
  s6 : Nat
  s7 : Nat
deriving DecidableEq, Repr

/-- `std::net::IpAddr`. -/
inductive IpAddr where
  | v4 (a : Ipv4Addr)
  | v6 (a : Ipv6Addr)
deriving DecidableEq, Repr

/-- `std::net::SocketAddr`, reduced to address and port (the codec
neither carries nor inspects the IPv6 flow and scope words, which the
decoder always reconstructs as zero). -/
structure SocketAddr where
  ip : IpAddr
  port : Nat
deriving DecidableEq, Repr

/-- `Ipv4Addr::is_loopback`: the `127.0.0.0/8` block. -/
def Ipv4Addr.is_loopback (a : Ipv4Addr) : Bool := a.o0 = 127

/-- `Ipv6Addr::is_loopback`: exactly `::1`. -/
def Ipv6Addr.is_loopback (a : Ipv6Addr) : Bool :=
  a.s0 = 0 ∧ a.s1 = 0 ∧ a.s2 = 0 ∧ a.s3 = 0 ∧ a.s4 = 0 ∧ a.s5 = 0 ∧ a.s6 = 0 ∧ a.s7 = 1

/-- `IpAddr::is_loopback`. -/
def IpAddr.is_loopback : IpAddr → Bool
  | .v4 a => a.is_loopback
  | .v6 a => a.is_loopback

/-- `Ipv6Addr::to_ipv4` (Rust std): converts an IPv4-compatible
(`::a.b.c.d`) or IPv4-mapped (`::ffff:a.b.c.d`) address, i.e. one whose
first five segments are zero and whose sixth segment is `0` or
`0xffff`, to the IPv4 address formed from the last two segments. -/
def Ipv6Addr.to_ipv4 (a : Ipv6Addr) : Option Ipv4Addr :=
  if a.s0 = 0 ∧ a.s1 = 0 ∧ a.s2 = 0 ∧ a.s3 = 0 ∧ a.s4 = 0 ∧ (a.s5 = 0 ∨ a.s5 = 0xffff) then
    some ⟨a.s6 / 256, a.s6 % 256, a.s7 / 256, a.s7 % 256⟩
  else
    none

/-- `PeerAddr` (`types.rs`): an IP socket address or a Tor onion
address. The onion `String` is embedded as its UTF-8 byte list. -/
inductive PeerAddr where
  | Ip (addr : SocketAddr)
  | Onion (onion : List Nat)
deriving DecidableEq, Repr

/-- Big-endian two-byte encoding, as `Writer::write_u16`. -/
def u16_be (x : Nat) : List Nat := [x / 256 % 256, x % 256]

/-- Big-endian eight-byte encoding, as `Writer::write_u64` (used for
the length prefix of `write_bytes`). -/
def u64_be (x : Nat) : List Nat :=
  [x / 2 ^ 56 % 256, x / 2 ^ 48 % 256, x / 2 ^ 40 % 256, x / 2 ^ 32 % 256,
   x / 2 ^ 24 % 256, x / 2 ^ 16 % 256, x / 2 ^ 8 % 256, x % 256]

/-- `impl Writeable for PeerAddr` (`types.rs`): tag `0` then the four
IPv4 octets then the port; tag `1` then the eight IPv6 segments then
the port; tag `2` then the `u64`-length-prefixed onion bytes, refused
(`ser::Error::TooLargeWriteErr`, embedded as `none`) when the onion
exceeds 100 bytes. -/
def PeerAddr.write : PeerAddr → Option (List Nat)
  | .Ip ⟨.v4 a, port⟩ => some ([0, a.o0, a.o1, a.o2, a.o3] ++ u16_be port)
  | .Ip ⟨.v6 a, port⟩ =>
    some ([1] ++ u16_be a.s0 ++ u16_be a.s1 ++ u16_be a.s2 ++ u16_be a.s3 ++
      u16_be a.s4 ++ u16_be a.s5 ++ u16_be a.s6 ++ u16_be a.s7 ++ u16_be port)
  | .Onion onion =>
    if onion.length > 100 then none
    else some ([2] ++ u64_be onion.length ++ onion)

/-- `Reader::read_u16`: consumes two bytes, big-endian. -/
def readU16 : List Nat → Option (Nat × List Nat)
  | b0 :: b1 :: rest => some (b0 * 256 + b1, rest)
  | _ => none

/-- `Reader::read_u64`: consumes eight bytes, big-endian. -/
def readU64 : List Nat → Option (Nat × List Nat)
  | b0 :: b1 :: b2 :: b3 :: b4 :: b5 :: b6 :: b7 :: rest =>
    some (((((((b0 * 256 + b1) * 256 + b2) * 256 + b3) * 256 + b4) * 256 + b5) * 256 + b6) * 256 + b7, rest)
  | _ => none

/-- One byte of a UTF-8 continuation (`0x80..=0xBF`). -/
def isUtf8Cont (b : Nat) : Bool := 0x80 ≤ b ∧ b ≤ 0xBF

/-- UTF-8 validity of a byte sequence, as checked by Rust's
`String::from_utf8`: ASCII, two- to four-byte sequences with the
standard lead-byte ranges, rejecting overlong forms, surrogates and
code points above `0x10FFFF`. -/
def validUtf8 : List Nat → Bool
  | [] => true
  | b :: rest =>
    if b < 0x80 then validUtf8 rest
    else if 0xC2 ≤ b ∧ b ≤ 0xDF then
      match rest with
      | c1 :: r => isUtf8Cont c1 && validUtf8 r
      | [] => false
    else if b = 0xE0 then
      match rest with
      | c1 :: c2 :: r => (0xA0 ≤ c1 ∧ c1 ≤ 0xBF : Bool) && isUtf8Cont c2 && validUtf8 r
      | _ => false
    else if (0xE1 ≤ b ∧ b ≤ 0xEC) ∨ b = 0xEE ∨ b = 0xEF then
      match rest with
      | c1 :: c2 :: r => isUtf8Cont c1 && isUtf8Cont c2 && validUtf8 r
      | _ => false
    else if b = 0xED then
      match rest with
      | c1 :: c2 :: r => (0x80 ≤ c1 ∧ c1 ≤ 0x9F : Bool) && isUtf8Cont c2 && validUtf8 r
      | _ => false
    else if b = 0xF0 then
      match rest with
      | c1 :: c2 :: c3 :: r =>
        (0x90 ≤ c1 ∧ c1 ≤ 0xBF : Bool) && isUtf8Cont c2 && isUtf8Cont c3 && validUtf8 r
      | _ => false
    else if 0xF1 ≤ b ∧ b ≤ 0xF3 then
      match rest with
      | c1 :: c2 :: c3 :: r => isUtf8Cont c1 && isUtf8Cont c2 && isUtf8Cont c3 && validUtf8 r
      | _ => false
    else if b = 0xF4 then
      match rest with
      | c1 :: c2 :: c3 :: r =>
        (0x80 ≤ c1 ∧ c1 ≤ 0x8F : Bool) && isUtf8Cont c2 && isUtf8Cont c3 && validUtf8 r
      | _ => false
    else false

/-- `impl Readable for PeerAddr` (`types.rs`): tag `0` reads an IPv4
socket address; tag `1` reads eight segments and a port, folding to
IPv4 whenever `Ipv6Addr::to_ipv4` accepts the address; any other tag
reads a length-prefixed onion payload, and a payload that is not valid
UTF-8 decodes to the empty string (`unwrap_or("")`). -/
def PeerAddr.read (bs : List Nat) : Option (PeerAddr × List Nat) :=
  match bs with
  | [] => none
  | v4_or_v6 :: rest =>
    if v4_or_v6 = 0 then
      match rest with
      | i0 :: i1 :: i2 :: i3 :: r =>
        match readU16 r with
        | some (port, r2) => some (.Ip ⟨.v4 ⟨i0, i1, i2, i3⟩, port⟩, r2)
        | none => none
      | _ => none
    else if v4_or_v6 = 1 then
      match readU16 rest with
      | some (s0, r0) =>
        match readU16 r0 with
        | some (s1, r1) =>
          match readU16 r1 with
          | some (s2, r2) =>
            match readU16 r2 with
            | some (s3, r3) =>
              match readU16 r3 with
              | some (s4, r4) =>
                match readU16 r4 with
                | some (s5, r5) =>
                  match readU16 r5 with
                  | some (s6, r6) =>
                    match readU16 r6 with
                    | some (s7, r7) =>
                      match readU16 r7 with
                      | some (port, r8) =>
                        let ipv6 : Ipv6Addr := ⟨s0, s1, s2, s3, s4, s5, s6, s7⟩
                        match ipv6.to_ipv4 with
                        | some ipv4 => some (.Ip ⟨.v4 ipv4, port⟩, r8)
                        | none => some (.Ip ⟨.v6 ipv6, port⟩, r8)
                      | none => none
                    | none => none
                  | none => none
                | none => none
              | none => none
            | none => none
          | none => none
        | none => none
      | none => none
    else
      match readU64 rest with
      | some (len, r) =>
        if len ≤ r.length then
          let oa := r.take len
          let onion_address := if validUtf8 oa then oa else []
          some (.Onion onion_address, r.drop len)
        else none
      | none => none

/-- The IPv4 folding the decoder applies: what an encoded `PeerAddr`
decodes back to. An IPv6 socket address accepted by
`Ipv6Addr::to_ipv4` folds to the corresponding IPv4 socket address at
the same port; everything else is unchanged. -/
def PeerAddr.canonicalize : PeerAddr → PeerAddr
  | .Ip ⟨.v6 a, port⟩ =>
    match a.to_ipv4 with
    | some v4 => .Ip ⟨.v4 v4, port⟩
    | none => .Ip ⟨.v6 a, port⟩
  | x => x

/-- Well-formedness of a `PeerAddr` value as guaranteed by the Rust
types: octets are bytes, segments and ports are 16-bit, and an onion
string is a valid-UTF-8 byte sequence. -/
def PeerAddr.wf : PeerAddr → Prop
  | .Ip ⟨.v4 a, port⟩ =>
    a.o0 < 256 ∧ a.o1 < 256 ∧ a.o2 < 256 ∧ a.o3 < 256 ∧ port < 65536
  | .Ip ⟨.v6 a, port⟩ =>
    a.s0 < 65536 ∧ a.s1 < 65536 ∧ a.s2 < 65536 ∧ a.s3 < 65536 ∧
    a.s4 < 65536 ∧ a.s5 < 65536 ∧ a.s6 < 65536 ∧ a.s7 < 65536 ∧ port < 65536
  | .Onion onion => (∀ b ∈ onion, b < 256) ∧ validUtf8 onion = true

instance : ∀ x : PeerAddr, Decidable x.wf := by
  intro x
  match x with
  | .Ip ⟨.v4 a, port⟩ => exact inferInstanceAs (Decidable (_ ∧ _))
  | .Ip ⟨.v6 a, port⟩ => exact inferInstanceAs (Decidable (_ ∧ _))
  | .Onion onion => exact inferInstanceAs (Decidable (_ ∧ _))

/-- `impl PartialEq for PeerAddr` (`types.rs`): a loopback IP compares
by full socket address (address and port); a non-loopback IP compares
by address only; onion addresses compare by string; mixed variants are
unequal. -/
def PeerAddr.eq : PeerAddr → PeerAddr → Bool
  | .Ip ip, .Ip other_ip =>
    if ip.ip.is_loopback then ip == other_ip else ip.ip == other_ip.ip
  | .Onion onion, .Onion other_onion => onion == other_onion
  | _, _ => false

/-- The data `impl Hash for PeerAddr` (`types.rs`) feeds to the hasher:
the full socket address for a loopback IP, the bare address for a
non-loopback IP, the string for an onion; two `PeerAddr` values hash
alike exactly when their keys are equal. -/
inductive PeerAddrHashKey where
  | sock (s : SocketAddr)
  | ipOnly (ip : IpAddr)
  | onionStr (o : List Nat)
deriving DecidableEq, Repr

/-- The hash projection of `impl Hash for PeerAddr`. -/
def PeerAddr.hashKey : PeerAddr → PeerAddrHashKey
  | .Ip ip => if ip.ip.is_loopback then .sock ip else .ipOnly ip.ip
  | .Onion onion => .onionStr onion

/- ================================================================
   p2p/src/types.rs — peer liveness tracking
   ================================================================ -/

/-- `PeerLiveInfo` (`types.rs`), with `DateTime<Utc>` timestamps
embedded as `Nat` instants. -/
structure PeerLiveInfo where
  total_difficulty : Nat
  height : Nat
  last_seen : Nat
  stuck_detector : Nat
  first_seen : Nat
deriving DecidableEq, Repr

/-- `PeerLiveInfo::new` (`types.rs`): difficulty as supplied, height 0,
all three timestamps set to now. -/
def PeerLiveInfo.new (now : Nat) (difficulty : Nat) : PeerLiveInfo :=
  { total_difficulty := difficulty, height := 0, first_seen := now,
    last_seen := now, stuck_detector := now }

/-- `PeerInfo::update` (`types.rs`), acting on the `PeerLiveInfo` held
under the write lock; the two `Utc::now()` calls inside one update are
embedded as a single instant `now`. -/
def PeerInfo.update (now : Nat) (li : PeerLiveInfo) (height : Nat)
    (total_difficulty : Nat) : PeerLiveInfo :=
  let li1 :=
    if total_difficulty ≠ li.total_difficulty then
      { li with stuck_detector := now }
    else li
  { li1 with height := height, total_difficulty := total_difficulty, last_seen := now }

/- ================================================================
   Theorems
   ================================================================ -/

/-- C2 counterexample: `max_block_weight()` does not return the same
value under `AutomatedTesting` (the artificially low testing weight)
and `PerfTesting` (the production weight), refuting the claim's
five-accessor-wide three-tier dispatch at this accessor. -/
theorem C2_counterexample_max_block_weight :
    ¬ (max_block_weight ChainTypes.AutomatedTesting = max_block_weight ChainTypes.PerfTesting) := by
  decide

/-- C2 (amended): every derived consensus accessor except
`max_block_weight` dispatches three-tier (equal values on
`{AutomatedTesting, PerfTesting}`, a `UserTesting` value, a shared
`{Floonet, Mainnet}` production value); `max_block_weight` agrees with
three-tier dispatch on `UserTesting`, `Floonet` and `Mainnet` but maps
`PerfTesting` to the production value `MAX_BLOCK_WEIGHT`, so its
`AutomatedTesting` and `PerfTesting` values differ. -/
theorem C2_three_tier_dispatch_amended :
    threeTier min_edge_bits ∧ threeTier base_edge_bits ∧ threeTier proofsize ∧
    threeTier coinbase_maturity ∧ threeTier cut_through_horizon ∧
    threeTier state_sync_threshold ∧ threeTier txhashset_archive_interval ∧
    max_block_weight ChainTypes.Floonet = max_block_weight ChainTypes.Mainnet ∧
    max_block_weight ChainTypes.AutomatedTesting = TESTING_MAX_BLOCK_WEIGHT ∧
    max_block_weight ChainTypes.UserTesting = TESTING_MAX_BLOCK_WEIGHT ∧
    max_block_weight ChainTypes.PerfTesting = MAX_BLOCK_WEIGHT ∧
    max_block_weight ChainTypes.AutomatedTesting ≠ max_block_weight ChainTypes.PerfTesting := by
  decide

/-- C5: `get_chain_type` returns the thread-local chain type when set;
otherwise the initialized global chain type; otherwise it panics
(embedded as `none`) rather than returning a default. -/
theorem C5_get_chain_type_resolution (s : ChainTypeState) :
    (∀ t, s.localType = some t → get_chain_type s = some (t, s)) ∧
    (∀ g, s.localType = none → s.globalType = some g →
      get_chain_type s = some (g, set_local_chain_type g s)) ∧
    (s.localType = none → s.globalType = none → get_chain_type s = none) := by
  refine ⟨fun t ht => ?_, fun g hl hg => ?_, fun hl hg => ?_⟩
  · simp [get_chain_type, ht]
  · simp [get_chain_type, hl, hg]
  · simp [get_chain_type, hl, hg]

/-- C5 witness: concrete instances of the three resolution cases. -/
theorem C5_get_chain_type_resolution_witness :
    get_chain_type ⟨some ChainTypes.Floonet, some ChainTypes.Mainnet⟩ =
      some (ChainTypes.Floonet, ⟨some ChainTypes.Floonet, some ChainTypes.Mainnet⟩) ∧
    get_chain_type ⟨none, some ChainTypes.Mainnet⟩ =
      some (ChainTypes.Mainnet, ⟨some ChainTypes.Mainnet, some ChainTypes.Mainnet⟩) ∧
    get_chain_type ⟨none, none⟩ = none := by
  refine ⟨(C5_get_chain_type_resolution ⟨some ChainTypes.Floonet, some ChainTypes.Mainnet⟩).1
      ChainTypes.Floonet rfl, ?_, ?_⟩
  · exact (C5_get_chain_type_resolution ⟨none, some ChainTypes.Mainnet⟩).2.1
      ChainTypes.Mainnet rfl rfl
  · exact (C5_get_chain_type_resolution ⟨none, none⟩).2.2 rfl rfl

/-- C6: `create_pow_context` picks the secondary (`cuckatoo`) backend
for `Mainnet`/`Floonet` exactly when `edge_bits > 29` and the primary
(`cuckarood`) otherwise; every other profile always gets `cuckatoo`;
the `height` argument never affects the choice. -/
theorem C6_create_pow_context_dispatch (ct : ChainTypes) (h eb ps ms : Nat) :
    ((ct = ChainTypes.Mainnet ∨ ct = ChainTypes.Floonet) →
      (create_pow_context ct h eb ps ms =
        if eb > 29 then PowBackend.cuckatoo else PowBackend.cuckarood)) ∧
    ((ct ≠ ChainTypes.Mainnet ∧ ct ≠ ChainTypes.Floonet) →
      create_pow_context ct h eb ps ms = PowBackend.cuckatoo) ∧
    (∀ h2 : Nat, create_pow_context ct h2 eb ps ms = create_pow_context ct h eb ps ms) := by
  refine ⟨fun hct => ?_, fun hct => ?_, fun h2 => ?_⟩
  · rcases hct with rfl | rfl <;> rfl
  · cases ct <;> simp_all [create_pow_context]
  · cases ct <;> rfl

/-- C6 witness: concrete dispatches at `edge_bits` 29 and 31. -/
theorem C6_create_pow_context_dispatch_witness :
    create_pow_context ChainTypes.Mainnet 0 29 42 10 = PowBackend.cuckarood ∧
    create_pow_context ChainTypes.Mainnet 0 31 42 10 = PowBackend.cuckatoo ∧
    create_pow_context ChainTypes.AutomatedTesting 0 29 42 10 = PowBackend.cuckatoo := by
  refine ⟨?_, ?_, ?_⟩
  · have := (C6_create_pow_context_dispatch ChainTypes.Mainnet 0 29 42 10).1 (Or.inl rfl)
    simpa using this
  · have := (C6_create_pow_context_dispatch ChainTypes.Mainnet 0 31 42 10).1 (Or.inl rfl)
    simpa using this
  · exact (C6_create_pow_context_dispatch ChainTypes.AutomatedTesting 0 29 42 10).2.1
      (by exact ⟨by simp, by simp⟩)

/-- C7: `update(height, total_difficulty)` resets `stuck_detector` to
now exactly when the supplied difficulty differs from the stored one,
always sets `height`, `total_difficulty` and `last_seen`, and never
touches `first_seen`. -/
theorem C7_update_liveness (now : Nat) (li : PeerLiveInfo) (height td : Nat) :
    (td ≠ li.total_difficulty → (PeerInfo.update now li height td).stuck_detector = now) ∧
    (td = li.total_difficulty →
      (PeerInfo.update now li height td).stuck_detector = li.stuck_detector) ∧
    (PeerInfo.update now li height td).height = height ∧
    (PeerInfo.update now li height td).total_difficulty = td ∧
    (PeerInfo.update now li height td).last_seen = now ∧
    (PeerInfo.update now li height td).first_seen = li.first_seen := by
  by_cases hc : td = li.total_difficulty
  · simp [PeerInfo.update, hc]
  · simp [PeerInfo.update, hc]

/-- C7 witness: updating with an unchanged difficulty keeps
`stuck_detector`; updating with a changed difficulty resets it. -/
theorem C7_update_liveness_witness :
    (PeerInfo.update 50 (PeerLiveInfo.new 10 7) 100 7).stuck_detector = 10 ∧
    (PeerInfo.update 50 (PeerLiveInfo.new 10 7) 100 8).stuck_detector = 50 ∧
    (PeerInfo.update 50 (PeerLiveInfo.new 10 7) 100 8).first_seen = 10 := by
  refine ⟨?_, ?_, ?_⟩
  · exact (C7_update_liveness 50 (PeerLiveInfo.new 10 7) 100 7).2.1 (by decide)
  · exact (C7_update_liveness 50 (PeerLiveInfo.new 10 7) 100 8).1 (by decide)
  · exact (C7_update_liveness 50 (PeerLiveInfo.new 10 7) 100 8).2.2.2.2.2

/-- C8 counterexample: the server flag starts `true` and a shutdown
request stores `false`, so the flag's only transition is true→false:
the claimed false→true-only latch fails on the concrete operation
`request_server_stop` applied to the initial state. -/
theorem C8_counterexample_latch_direction :
    SERVER_RUNNING_INIT = true ∧
    serverStep ServerOp.requestStop SERVER_RUNNING_INIT = false ∧
    ¬ (∀ (op : ServerOp) (s : Bool), serverStep op s = false → s = false) := by
  refine ⟨rfl, rfl, fun h => ?_⟩
  have := h ServerOp.requestStop true rfl
  cases this

/-- C8 (amended): the process liveness flag is a one-way latch in the
true→false direction: it starts `true`, `request_server_stop` stores
`false`, reads leave it unchanged, and over any operation sequence the
flag never returns to `true` once `false`. -/
theorem C8_one_way_latch_amended (ops : List ServerOp) (s : Bool) :
    SERVER_RUNNING_INIT = true ∧
    (runServerOps ops s = true → s = true) ∧
    (∀ op : ServerOp, serverStep op false = false) ∧
    serverStep ServerOp.requestStop true = false ∧
    serverStep ServerOp.isRunning s = s ∧
    serverStep ServerOp.getController s = s := by
  refine ⟨rfl, ?_, fun op => ?_, rfl, rfl, rfl⟩
  · induction ops generalizing s with
    | nil => exact fun h => h
    | cons op rest ih =>
      intro h
      have hs := ih (serverStep op s) h
      cases op with
      | requestStop => cases hs
      | isRunning => exact hs
      | getController => exact hs
  · cases op <;> rfl

/-- C8 witness: a concrete run — after a stop request the flag stays
`false` through further operations and never re-latches to `true`. -/
theorem C8_one_way_latch_amended_witness :
    runServerOps [ServerOp.isRunning, ServerOp.requestStop, ServerOp.isRunning] true = false ∧
    (runServerOps [ServerOp.isRunning] false = true → False) := by
  constructor
  · rfl
  · intro h
    have := (C8_one_way_latch_amended [ServerOp.isRunning] false).2.1 h
    cases this

/-- C4: `PeerAddr` equality and hashing are not structural — two IP
values with loopback addresses are equal (and project to equal hash
inputs) exactly when address and port both match, two IP values with
non-loopback addresses exactly when the addresses match, ports
ignored; concretely loopback `127.0.0.1` with ports 3414/9999 is
unequal while `8.8.8.8` with ports 3414/9999 is equal. -/
theorem C4_eq_hash_asymmetry (a b : SocketAddr) :
    (a.ip.is_loopback = true → b.ip.is_loopback = true →
      ((PeerAddr.eq (.Ip a) (.Ip b) = true ↔ a.ip = b.ip ∧ a.port = b.port) ∧
       (PeerAddr.hashKey (.Ip a) = PeerAddr.hashKey (.Ip b) ↔ a.ip = b.ip ∧ a.port = b.port))) ∧
    (a.ip.is_loopback = false → b.ip.is_loopback = false →
      ((PeerAddr.eq (.Ip a) (.Ip b) = true ↔ a.ip = b.ip) ∧
       (PeerAddr.hashKey (.Ip a) = PeerAddr.hashKey (.Ip b) ↔ a.ip = b.ip))) ∧
    PeerAddr.eq (.Ip ⟨.v4 ⟨127, 0, 0, 1⟩, 3414⟩) (.Ip ⟨.v4 ⟨127, 0, 0, 1⟩, 9999⟩) = false ∧
    PeerAddr.eq (.Ip ⟨.v4 ⟨8, 8, 8, 8⟩, 3414⟩) (.Ip ⟨.v4 ⟨8, 8, 8, 8⟩, 9999⟩) = true := by
  obtain ⟨aip, aport⟩ := a
  obtain ⟨bip, bport⟩ := b
  refine ⟨fun ha hb => ⟨?_, ?_⟩, fun ha hb => ⟨?_, ?_⟩, by decide, by decide⟩ <;>
    simp [PeerAddr.eq, PeerAddr.hashKey, ha, hb, SocketAddr.mk.injEq]

/-- C4 witness: the two concrete loopback/non-loopback cases, via the
general statement. -/
theorem C4_eq_hash_asymmetry_witness :
    (PeerAddr.eq (.Ip ⟨.v4 ⟨127, 0, 0, 1⟩, 3414⟩) (.Ip ⟨.v4 ⟨127, 0, 0, 1⟩, 3414⟩) = true) ∧
    (PeerAddr.hashKey (.Ip ⟨.v4 ⟨8, 8, 8, 8⟩, 3414⟩) =
      PeerAddr.hashKey (.Ip ⟨.v4 ⟨8, 8, 8, 8⟩, 9999⟩)) := by
  constructor
  · exact ((C4_eq_hash_asymmetry ⟨.v4 ⟨127, 0, 0, 1⟩, 3414⟩ ⟨.v4 ⟨127, 0, 0, 1⟩, 3414⟩).1
      rfl rfl).1.mpr ⟨rfl, rfl⟩
  · exact ((C4_eq_hash_asymmetry ⟨.v4 ⟨8, 8, 8, 8⟩, 3414⟩ ⟨.v4 ⟨8, 8, 8, 8⟩, 9999⟩).2.1
      rfl rfl).2.mpr rfl

/-- Every run of the padding loop emits exactly as many entries as
requested. -/
theorem padSim_length (delta diff : Nat) : ∀ (ts k : Nat), (padSim delta diff ts k).length = k := by
  intro ts k
  induction k generalizing ts with
  | zero => rfl
  | succ k ih => simp [padSim, ih]

/-- Closed form of the reversed padding loop: entry `i` (oldest-first)
carries the start timestamp minus `k - i` deltas, saturating at 0. -/
theorem padSim_reverse (delta diff : Nat) : ∀ (ts k : Nat),
    (padSim delta diff ts k).reverse =
      (List.range k).map (fun i => HeaderInfo.from_ts_diff (ts - (k - i) * delta) diff) := by
  intro ts k
  induction k generalizing ts with
  | zero => rfl
  | succ k ih =>
    rw [padSim, List.reverse_cons, ih (ts - delta), List.range_succ, List.map_append]
    congr 1
    · apply List.map_congr_left
      intro i hi
      have hik : i < k := List.mem_range.mp hi
      have h2 : ts - (k + 1 - i) * delta = ts - delta - (k - i) * delta := by
        have h1 : k + 1 - i = (k - i) + 1 := by omega
        rw [h1, Nat.succ_mul]
        omega
      rw [h2]
    · simp

/-- The claim's delta: the difference of the two most recent real
timestamps, or the nominal block time when fewer than two real
samples exist. -/
def deltaSpec : List HeaderInfo → Nat
  | a :: b :: _ => a.timestamp - b.timestamp
  | _ => BLOCK_TIME_SEC

/-- The code's delta expression from `difficulty_data_to_vector`
(wrapping `u64` subtraction of the two newest timestamps, nominal
block time for a single sample). -/
def deltaCode : List HeaderInfo → Nat
  | a :: b :: _ => u64_sub a.timestamp b.timestamp
  | _ => BLOCK_TIME_SEC

/-- Unfolding of `difficulty_data_to_vector` on a short nonempty
cursor: the real samples followed by the simulated entries, reversed. -/
theorem ddtv_cons_eq (first : HeaderInfo) (rest : List HeaderInfo)
    (hlen : (first :: rest).length < DIFFICULTY_ADJUST_WINDOW + 1) :
    difficulty_data_to_vector (first :: rest) =
      some (((first :: rest) ++
        padSim (deltaCode (first :: rest)) first.difficulty
          (((first :: rest).getLast (List.cons_ne_nil _ _)).timestamp)
          (DIFFICULTY_ADJUST_WINDOW + 1 - (first :: rest).length)).reverse) := by
  have htake : (first :: rest).take (DIFFICULTY_ADJUST_WINDOW + 1) = first :: rest :=
    List.take_of_length_le (Nat.le_of_lt hlen)
  have hcond : DIFFICULTY_ADJUST_WINDOW + 1 > (first :: rest).length := hlen
  cases rest with
  | nil =>
    simp only [difficulty_data_to_vector, htake, if_pos hcond, deltaCode]
  | cons second rest2 =>
    simp only [difficulty_data_to_vector, htake, if_pos hcond, deltaCode]

/-- On a cursor whose two newest timestamps are ordered and in `u64`
range, the code's delta is the plain timestamp difference the claim
describes. -/
theorem deltaCode_eq_deltaSpec (cursor : List HeaderInfo)
    (hord : ∀ a b rest2, cursor = a :: b :: rest2 →
      b.timestamp ≤ a.timestamp ∧ a.timestamp < 2 ^ 64) :
    deltaCode cursor = deltaSpec cursor := by
  match cursor with
  | [] => rfl
  | [a] => rfl
  | a :: b :: rest2 =>
    obtain ⟨hts, hlt⟩ := hord a b rest2 rfl
    show u64_sub a.timestamp b.timestamp = a.timestamp - b.timestamp
    unfold u64_sub
    have h1 : a.timestamp + 2 ^ 64 - b.timestamp =
        (a.timestamp - b.timestamp) + 2 ^ 64 := by omega
    rw [h1, Nat.add_mod_right, Nat.mod_eq_of_lt (by omega)]

/-- C3 counterexample: on the two-sample cursor (newest first) with
difficulties 7 (newest) and 5 (oldest), every synthesized entry of the
padded window carries the newest difficulty 7, refuting the claim that
synthesized entries repeat the oldest known difficulty 5. -/
theorem C3_counterexample_synth_difficulty :
    (∀ e ∈ ((difficulty_data_to_vector
        ([⟨200, 7, 1⟩, ⟨140, 5, 1⟩] : List HeaderInfo)).getD []).take 59,
      e.difficulty = 7) ∧
    ¬ (∀ e ∈ ((difficulty_data_to_vector
        ([⟨200, 7, 1⟩, ⟨140, 5, 1⟩] : List HeaderInfo)).getD []).take 59,
      e.difficulty = 5) := by
  decide

/-- C3 (amended): a short nonempty cursor (newest first, with the two
newest timestamps ordered and in `u64` range) is padded to exactly
`DIFFICULTY_ADJUST_WINDOW + 1` entries: the delta is the difference of
the two most recent real timestamps (nominal block time with fewer
than two real samples), synthesized timestamps repeatedly subtract the
delta (saturating) from the oldest known timestamp, every synthesized
entry repeats the difficulty of the most recent (newest) real sample,
and the result is oldest-first: synthesized entries ascending, then
the real samples reversed. -/
theorem C3_window_padding_amended (cursor : List HeaderInfo) (hne : cursor ≠ [])
    (hlen : cursor.length < DIFFICULTY_ADJUST_WINDOW + 1)
    (hord : ∀ a b rest2, cursor = a :: b :: rest2 →
      b.timestamp ≤ a.timestamp ∧ a.timestamp < 2 ^ 64) :
    difficulty_data_to_vector cursor =
      some ((List.range (DIFFICULTY_ADJUST_WINDOW + 1 - cursor.length)).map
          (fun i => HeaderInfo.from_ts_diff
            ((cursor.getLast hne).timestamp -
              (DIFFICULTY_ADJUST_WINDOW + 1 - cursor.length - i) * deltaSpec cursor)
            (cursor.head hne).difficulty) ++ cursor.reverse) ∧
    (∀ out, difficulty_data_to_vector cursor = some out →
      out.length = DIFFICULTY_ADJUST_WINDOW + 1) := by
  cases cursor with
  | nil => exact absurd rfl hne
  | cons first rest =>
    have heq := ddtv_cons_eq first rest hlen
    rw [deltaCode_eq_deltaSpec (first :: rest) hord] at heq
    constructor
    · rw [heq, List.reverse_append, padSim_reverse]
      simp
    · intro out hout
      rw [heq] at hout
      have hsome := Option.some_injective _ hout.symm
      rw [hsome, List.length_reverse, List.length_append, padSim_length]
      simp only [List.length_cons] at hlen ⊢
      omega

/-- C3 witness: a single real sample of difficulty 9 at timestamp
360000: the padded window keeps length 61, the synthesized entries
step back by the nominal block time and repeat difficulty 9, and the
real sample sits last (newest). -/
theorem C3_window_padding_amended_witness :
    difficulty_data_to_vector ([⟨360000, 9, 1⟩] : List HeaderInfo) =
      some ((List.range 60).map
        (fun i => HeaderInfo.from_ts_diff (360000 - (60 - i) * 60) 9) ++
        [⟨360000, 9, 1⟩]) := by
  have h := (C3_window_padding_amended ([⟨360000, 9, 1⟩] : List HeaderInfo)
    (by decide) (by decide) (by intro a b rest2 h; cases h)).1
  simpa [deltaSpec, BLOCK_TIME_SEC, DIFFICULTY_ADJUST_WINDOW] using h

/-- C10: `difficulty_data_to_vector` is total only on nonempty input:
the empty cursor panics (embedded as `none`) by indexing element 0 of
an empty vector, while every nonempty cursor yields a window of
exactly `DIFFICULTY_ADJUST_WINDOW + 1` entries. -/
theorem C10_nonempty_precondition :
    difficulty_data_to_vector [] = none ∧
    ∀ cursor : List HeaderInfo, cursor ≠ [] →
      ∃ out, difficulty_data_to_vector cursor = some out ∧
        out.length = DIFFICULTY_ADJUST_WINDOW + 1 := by
  constructor
  · rfl
  · intro cursor hne
    cases cursor with
    | nil => exact absurd rfl hne
    | cons first rest =>
      by_cases hlen : (first :: rest).length < DIFFICULTY_ADJUST_WINDOW + 1
      · refine ⟨_, ddtv_cons_eq first rest hlen, ?_⟩
        rw [List.length_reverse, List.length_append, padSim_length]
        simp only [List.length_cons] at hlen ⊢
        omega
      · push_neg at hlen
        have htl : ((first :: rest).take (DIFFICULTY_ADJUST_WINDOW + 1)).length =
            DIFFICULTY_ADJUST_WINDOW + 1 := by
          rw [List.length_take]
          omega
        refine ⟨((first :: rest).take (DIFFICULTY_ADJUST_WINDOW + 1)).reverse, ?_, ?_⟩
        · simp only [difficulty_data_to_vector, htl]
          rw [if_neg (lt_irrefl _)]
        · rw [List.length_reverse, htl]

/-- Reading back a written 16-bit value returns it unchanged. -/
theorem readU16_u16_be (x : Nat) (hx : x < 65536) (rest : List Nat) :
    readU16 (u16_be x ++ rest) = some (x, rest) := by
  have hr : x / 256 % 256 * 256 + x % 256 = x := by omega
  simp only [u16_be, List.cons_append, List.nil_append, readU16, hr]

/-- Reading back a written 64-bit value returns it unchanged. -/
theorem readU64_u64_be (x : Nat) (hx : x < 2 ^ 64) (rest : List Nat) :
    readU64 (u64_be x ++ rest) = some (x, rest) := by
  have hr : ((((((x / 2 ^ 56 % 256 * 256 + x / 2 ^ 48 % 256) * 256 + x / 2 ^ 40 % 256) * 256 +
      x / 2 ^ 32 % 256) * 256 + x / 2 ^ 24 % 256) * 256 + x / 2 ^ 16 % 256) * 256 +
      x / 2 ^ 8 % 256) * 256 + x % 256 = x := by omega
  simp only [u64_be, List.cons_append, List.nil_append, readU64, hr]

/-- Decoding an encoded IPv4 peer address returns it unchanged. -/
theorem write_read_v4 (a : Ipv4Addr) (port : Nat) (hport : port < 65536) :
    (PeerAddr.Ip ⟨.v4 a, port⟩).write.bind PeerAddr.read =
      some (PeerAddr.Ip ⟨.v4 a, port⟩, []) := by
  have hp : port / 256 % 256 * 256 + port % 256 = port := by omega
  simp [PeerAddr.write, PeerAddr.read, u16_be, readU16, hp]

/-- Decoding an encoded IPv6 peer address returns its canonical form:
the decoder reconstructs the segments and port and then folds through
`Ipv6Addr::to_ipv4`. -/
theorem write_read_v6 (a : Ipv6Addr) (port : Nat)
    (hwf : (PeerAddr.Ip ⟨.v6 a, port⟩).wf) :
    (PeerAddr.Ip ⟨.v6 a, port⟩).write.bind PeerAddr.read =
      some ((PeerAddr.Ip ⟨.v6 a, port⟩).canonicalize, []) := by
  obtain ⟨s0, s1, s2, s3, s4, s5, s6, s7⟩ := a
  obtain ⟨h0, h1, h2, h3, h4, h5, h6, h7, hp⟩ := hwf
  have b0 : s0 < 65536 := h0
  have b1 : s1 < 65536 := h1
  have b2 : s2 < 65536 := h2
  have b3 : s3 < 65536 := h3
  have b4 : s4 < 65536 := h4
  have b5 : s5 < 65536 := h5
  have b6 : s6 < 65536 := h6
  have b7 : s7 < 65536 := h7
  have bp : port < 65536 := hp
  have e0 : s0 / 256 % 256 * 256 + s0 % 256 = s0 := by omega
  have e1 : s1 / 256 % 256 * 256 + s1 % 256 = s1 := by omega
  have e2 : s2 / 256 % 256 * 256 + s2 % 256 = s2 := by omega
  have e3 : s3 / 256 % 256 * 256 + s3 % 256 = s3 := by omega
  have e4 : s4 / 256 % 256 * 256 + s4 % 256 = s4 := by omega
  have e5 : s5 / 256 % 256 * 256 + s5 % 256 = s5 := by omega
  have e6 : s6 / 256 % 256 * 256 + s6 % 256 = s6 := by omega
  have e7 : s7 / 256 % 256 * 256 + s7 % 256 = s7 := by omega
  have ep : port / 256 % 256 * 256 + port % 256 = port := by omega
  simp only [PeerAddr.write, Option.some_bind, List.cons_append, List.nil_append,
    u16_be, PeerAddr.read, readU16, e0, e1, e2, e3, e4, e5, e6, e7, ep,
    PeerAddr.canonicalize]
  cases hto : Ipv6Addr.to_ipv4 ⟨s0, s1, s2, s3, s4, s5, s6, s7⟩ <;> simp [hto]

/-- Decoding an encoded onion peer address of at most 100 valid UTF-8
bytes returns it unchanged. -/
theorem write_read_onion (onion : List Nat) (hval : validUtf8 onion = true)
    (hlen : onion.length ≤ 100) :
    (PeerAddr.Onion onion).write.bind PeerAddr.read =
      some (PeerAddr.Onion onion, []) := by
  have hl : onion.length < 2 ^ 64 := lt_of_le_of_lt hlen (by norm_num)
  have hnot : ¬ onion.length > 100 := Nat.not_lt.mpr hlen
  simp only [PeerAddr.write, if_neg hnot, Option.some_bind, List.cons_append,
    List.nil_append, PeerAddr.read, List.singleton_append]
  rw [readU64_u64_be onion.length hl onion]
  simp [List.take_length, List.drop_length, hval]

/-- C1 counterexample: `Ip([::1]:80)` is not an IPv4-mapped IPv6
address (its sixth segment is `0`, not `0xffff`), yet decoding its
encoding yields `Ip(0.0.0.1:80)` rather than the value itself,
refuting "every other value decodes to itself exactly". -/
theorem C1_counterexample_ipv4_compatible :
    ((PeerAddr.Ip ⟨.v6 ⟨0, 0, 0, 0, 0, 0, 0, 1⟩, 80⟩).write.bind PeerAddr.read =
      some (PeerAddr.Ip ⟨.v4 ⟨0, 0, 0, 1⟩, 80⟩, [])) ∧
    (PeerAddr.Ip ⟨.v4 ⟨0, 0, 0, 1⟩, 80⟩ ≠ PeerAddr.Ip ⟨.v6 ⟨0, 0, 0, 0, 0, 0, 0, 1⟩, 80⟩) ∧
    ((⟨0, 0, 0, 0, 0, 0, 0, 1⟩ : Ipv6Addr).s5 ≠ 0xffff) := by
  refine ⟨by decide, by decide, by decide⟩

/-- C1 (amended): for every well-formed `PeerAddr` whose onion string
does not exceed 100 bytes, decoding the encoding yields the value
after the decoder's IPv4 folding, which canonicalizes every IPv6
socket address accepted by `Ipv6Addr::to_ipv4` (IPv4-compatible as
well as IPv4-mapped) to the corresponding IPv4 value at the same port
and leaves every other value unchanged. -/
theorem C1_roundtrip_amended (x : PeerAddr) (hwf : x.wf)
    (hlen : ∀ o, x = PeerAddr.Onion o → o.length ≤ 100) :
    x.write.bind PeerAddr.read = some (x.canonicalize, []) := by
  match x with
  | .Ip ⟨.v4 a, port⟩ =>
    obtain ⟨h0, h1, h2, h3, hp⟩ := hwf
    rw [write_read_v4 a port hp]
    rfl
  | .Ip ⟨.v6 a, port⟩ =>
    exact write_read_v6 a port hwf
  | .Onion onion =>
    rw [write_read_onion onion hwf.2 (hlen onion rfl)]
    rfl

/-- C1 witness: round trips at a concrete IPv4 address, a concrete
IPv4-mapped IPv6 address (folded to IPv4), and a concrete onion
string. -/
theorem C1_roundtrip_amended_witness :
    ((PeerAddr.Ip ⟨.v4 ⟨8, 8, 8, 8⟩, 3414⟩).write.bind PeerAddr.read =
      some (PeerAddr.Ip ⟨.v4 ⟨8, 8, 8, 8⟩, 3414⟩, [])) ∧
    ((PeerAddr.Ip ⟨.v6 ⟨0, 0, 0, 0, 0, 0xffff, 0x7f00, 1⟩, 3414⟩).write.bind PeerAddr.read =
      some (PeerAddr.Ip ⟨.v4 ⟨127, 0, 0, 1⟩, 3414⟩, [])) ∧
    ((PeerAddr.Onion [97, 98, 99]).write.bind PeerAddr.read =
      some (PeerAddr.Onion [97, 98, 99], [])) := by
  refine ⟨?_, ?_, ?_⟩
  · have h := C1_roundtrip_amended (PeerAddr.Ip ⟨.v4 ⟨8, 8, 8, 8⟩, 3414⟩)
      (by decide) (by intro o ho; cases ho)
    simpa using h
  · have h := C1_roundtrip_amended (PeerAddr.Ip ⟨.v6 ⟨0, 0, 0, 0, 0, 0xffff, 0x7f00, 1⟩, 3414⟩)
      (by decide) (by intro o ho; cases ho)
    rw [h]
    rfl
  · have h := C1_roundtrip_amended (PeerAddr.Onion [97, 98, 99])
      (by decide) (by intro o ho; cases ho; decide)
    simpa using h

/-- C9: the wire decoder folds to the IPv4 variant every IPv6 address
accepted by `Ipv6Addr::to_ipv4`, which includes IPv4-compatible
addresses (first 96 bits zero), not only IPv4-mapped ones; in
particular `Ip([::1]:3414)` decodes from its own encoding as
`Ip(0.0.0.1:3414)`, so the IPv6 loopback does not survive the round
trip as an IPv6 value. -/
theorem C9_decoder_folds_to_ipv4 :
    (∀ (a : Ipv6Addr) (port : Nat) (v4 : Ipv4Addr),
      (PeerAddr.Ip ⟨.v6 a, port⟩).wf → a.to_ipv4 = some v4 →
      (PeerAddr.Ip ⟨.v6 a, port⟩).write.bind PeerAddr.read =
        some (PeerAddr.Ip ⟨.v4 v4, port⟩, [])) ∧
    (∀ (a : Ipv6Addr),
      a.s0 = 0 → a.s1 = 0 → a.s2 = 0 → a.s3 = 0 → a.s4 = 0 → a.s5 = 0 →
      a.to_ipv4 = some ⟨a.s6 / 256, a.s6 % 256, a.s7 / 256, a.s7 % 256⟩) ∧
    ((PeerAddr.Ip ⟨.v6 ⟨0, 0, 0, 0, 0, 0, 0, 1⟩, 3414⟩).write.bind PeerAddr.read =
      some (PeerAddr.Ip ⟨.v4 ⟨0, 0, 0, 1⟩, 3414⟩, [])) ∧
    (∀ port : Nat, PeerAddr.canonicalize (PeerAddr.Ip ⟨.v6 ⟨0, 0, 0, 0, 0, 0, 0, 1⟩, port⟩) =
      PeerAddr.Ip ⟨.v4 ⟨0, 0, 0, 1⟩, port⟩) := by
  refine ⟨?_, ?_, by decide, fun port => rfl⟩
  · intro a port v4 hwf hfold
    have h := write_read_v6 a port hwf
    rw [h]
    simp [PeerAddr.canonicalize, hfold]
  · intro a e0 e1 e2 e3 e4 e5
    simp [Ipv6Addr.to_ipv4, e0, e1, e2, e3, e4, e5]
